import Mathlib

/-!
# omnidrive.h: velocity boundaries and wheel mapping of an omnidirectional drive

Shallow embedding of `src/omnidrive.h` in its tri-wheel configuration
(`TRI_CONFIG` is defined in the header, so the `#ifndef TRI_CONFIG` parts are
not compiled).

* C++ `int` / `int32_t` values are integers; every `+`, `-`, `*`, `/` of the
  source is embedded by `iadd`, `isub`, `imul`, `idiv`, which reduce the exact
  result into the signed 32-bit range (two's complement wraparound, the
  behaviour of the 32-bit targets the header names).  `/` truncates towards
  zero, as in C++.
* `cosd` / `sind` come from `fastTrig.h`, which is not part of the sources; the
  operations take them as a parameter (`TrigSource`).
* The caller-owned output slots `*v_a`, `*v_b`, `*v_c` are the state `Wheels`;
  `move` and `moveCartesian` map the state before the call to the returned
  status and the state after it.
-/

namespace Omnidrive

/-! ## Constants of the header -/

/-- The macro `#define MAX_RANGE 255`. -/
def MAX_RANGE : Int := 255

/-- The macro `#define FLOAT_ZERO_ERROR 10`. -/
def FLOAT_ZERO_ERROR : Int := 10

/-- The macro `#define THETA_A 180` (tri configuration). -/
def THETA_A : Int := 180

/-- The macro `#define THETA_B 60` (tri configuration). -/
def THETA_B : Int := 60

/-- The macro `#define THETA_C 300` (tri configuration). -/
def THETA_C : Int := 300

/-! ## 32-bit integer arithmetic -/

/-- Reduction of an exact integer into the signed 32-bit range. -/
def wrap32 (x : Int) : Int := (x + 2147483648) % 4294967296 - 2147483648

/-- The C++ `a + b` on `int`. -/
def iadd (a b : Int) : Int := wrap32 (a + b)

/-- The C++ `a - b` on `int`. -/
def isub (a b : Int) : Int := wrap32 (a - b)

/-- The C++ `a * b` on `int`. -/
def imul (a b : Int) : Int := wrap32 (a * b)

/-- The C++ `a / b` on `int`: the quotient truncated towards zero. -/
def idiv (a b : Int) : Int := wrap32 (Int.tdiv a b)

/-! ## Data model -/

/-- The trig collaborator of `fastTrig.h`: `cosd` and `sind` of an integer
angle in degrees. -/
structure TrigSource where
  cosd : Int → Int
  sind : Int → Int

/-- The pair `(min, max)` that `getBoundaries` writes through its reference
parameters. -/
structure Bounds where
  min : Int
  max : Int
deriving DecidableEq, Repr

/-- The three caller-owned output slots `*v_a`, `*v_b`, `*v_c`. -/
structure Wheels where
  v_a : Int
  v_b : Int
  v_c : Int
deriving DecidableEq, Repr

/-! ## getBoundaries, core overload (omnidrive.h lines 236-300) -/

/-- The update closing each wheel block:
`if (temp_max < max) max = temp_max; else if (temp_min > min) min = temp_min;`. -/
def tighten (temp_max temp_min : Int) (b : Bounds) : Bounds :=
  if temp_max < b.max then { b with max := temp_max }
  else if temp_min > b.min then { b with min := temp_min }
  else b

/-- The wheel A block (lines 244-256).  In its `cos_a >= 0` branch `temp_min`
is `(-MAX_RANGE - psi) / cos_a`, without the factor 32767. -/
def stepA (psi cos_a : Int) (b : Bounds) : Bounds :=
  if cos_a < -FLOAT_ZERO_ERROR ∨ cos_a > FLOAT_ZERO_ERROR then
    if cos_a ≥ 0 then
      tighten (idiv (imul 32767 (isub MAX_RANGE psi)) cos_a)
        (idiv (isub (-MAX_RANGE) psi) cos_a) b
    else
      tighten (idiv (imul 32767 (isub (-MAX_RANGE) psi)) cos_a)
        (idiv (imul 32767 (isub MAX_RANGE psi)) cos_a) b
  else b

/-- The wheel B block (lines 258-270) and the wheel C block (lines 272-284),
which differ only in the cosine they read. -/
def stepBC (psi cos_w : Int) (b : Bounds) : Bounds :=
  if cos_w < -FLOAT_ZERO_ERROR ∨ cos_w > FLOAT_ZERO_ERROR then
    if cos_w ≥ 0 then
      tighten (idiv (imul 32767 (isub MAX_RANGE psi)) cos_w)
        (idiv (imul 32767 (isub (-MAX_RANGE) psi)) cos_w) b
    else
      tighten (idiv (imul 32767 (isub (-MAX_RANGE) psi)) cos_w)
        (idiv (imul 32767 (isub MAX_RANGE psi)) cos_w) b
  else b

/-- Core `getBoundaries(psi, min, max, cos_a, cos_b, cos_c)`: `max` and `min`
are first set to 2147483647 and -2147483648 (whatever the caller passed in),
then the three wheel blocks run in order. -/
def getBoundaries (psi cos_a cos_b cos_c : Int) : Bounds :=
  stepBC psi cos_c (stepBC psi cos_b (stepA psi cos_a
    { min := -2147483648, max := 2147483647 }))

/-! ## getBoundaries, (alpha, psi) overload, getMaxV / getMinV -/

/-- The projection cosine `cosd(THETA + 90 - alpha)` of the wheel mounted at
`theta` (lines 155-157 and 221-223); the angle is computed on `int`. -/
def wheelCos (t : TrigSource) (theta alpha : Int) : Int :=
  t.cosd (isub (iadd theta 90) alpha)

/-- The overload `getBoundaries(alpha, psi, min, max)` (lines 220-230): each
cosine is divided by 32767 before the core overload is called. -/
def getBoundariesAlpha (t : TrigSource) (alpha psi : Int) : Bounds :=
  getBoundaries psi
    (idiv (wheelCos t THETA_A alpha) 32767)
    (idiv (wheelCos t THETA_B alpha) 32767)
    (idiv (wheelCos t THETA_C alpha) 32767)

/-- The method `omnidrive::getMaxV` (lines 105-109). -/
def getMaxV (t : TrigSource) (alpha psi : Int) : Int :=
  (getBoundariesAlpha t alpha psi).max

/-- The method `omnidrive::getMinV` (lines 110-114). -/
def getMinV (t : TrigSource) (alpha psi : Int) : Int :=
  (getBoundariesAlpha t alpha psi).min

/-! ## move and moveCartesian -/

/-- The clamp of `move` (lines 178-179): the speed used and the status. -/
def clampSpeed (v : Int) (b : Bounds) : Int × Int :=
  if v < b.min then (b.min, 2)
  else if v > b.max then (b.max, 3)
  else (v, 0)

/-- The boundary `(v_min, v_max)` that `move` computes (lines 155-175): the
core `getBoundaries` on the three projection cosines, not divided. -/
def moveBounds (t : TrigSource) (alpha psi : Int) : Bounds :=
  getBoundaries psi (wheelCos t THETA_A alpha) (wheelCos t THETA_B alpha)
    (wheelCos t THETA_C alpha)

/-- The method `omnidrive::move(alpha, v, psi)` (lines 151-189): the returned status and
the output slots after the call. -/
def move (t : TrigSource) (alpha v psi : Int) (w : Wheels) : Int × Wheels :=
  if psi > MAX_RANGE ∨ psi < -MAX_RANGE then (1, w)
  else
    let cos_a := wheelCos t THETA_A alpha
    let cos_b := wheelCos t THETA_B alpha
    let cos_c := wheelCos t THETA_C alpha
    let vo := clampSpeed v (moveBounds t alpha psi)
    (vo.2,
      { v_a := iadd (idiv (imul vo.1 cos_a) 32767) psi,
        v_b := iadd (idiv (imul vo.1 cos_b) 32767) psi,
        v_c := iadd (idiv (imul vo.1 cos_c) 32767) psi })

/-- The method `omnidrive::moveCartesian(v_x, v_y, psi)` (lines 195-214). -/
def moveCartesian (t : TrigSource) (v_x v_y psi : Int) (w : Wheels) : Int × Wheels :=
  if psi > MAX_RANGE ∨ psi < -MAX_RANGE then (1, w)
  else
    (0,
      { v_a := iadd (idiv (isub (imul (t.cosd THETA_A) v_x) (imul (t.sind THETA_A) v_y)) 32767) psi,
        v_b := iadd (idiv (isub (imul (t.cosd THETA_B) v_x) (imul (t.sind THETA_B) v_y)) 32767) psi,
        v_c := iadd (idiv (isub (imul (t.cosd THETA_C) v_x) (imul (t.sind THETA_C) v_y)) 32767) psi })

/-! ## The boundary of the specification (section 4.2) -/

/-- A wheel imposes a constraint when its cosine is beyond the threshold,
`|c| > 10`. -/
def constrains (c : Int) : Prop := c < -10 ∨ 10 < c

instance (c : Int) : Decidable (constrains c) := by
  unfold constrains
  exact inferInstance

/-- Section 4.2, `candidate_max` of a wheel with cosine `c`, in exact integer
arithmetic with truncating division. -/
def candidateMax (psi c : Int) : Int :=
  if 0 ≤ c then Int.tdiv (32767 * (255 - psi)) c
  else Int.tdiv (32767 * (-255 - psi)) c

/-- Section 4.2, `candidate_min` of a wheel with cosine `c`, in exact integer
arithmetic with truncating division. -/
def candidateMin (psi c : Int) : Int :=
  if 0 ≤ c then Int.tdiv (32767 * (-255 - psi)) c
  else Int.tdiv (32767 * (255 - psi)) c

/-- The `temp_min` that the wheel A block computes (lines 247 and 251), in
exact integer arithmetic. -/
def tempMinA (psi c : Int) : Int :=
  if 0 ≤ c then Int.tdiv (-255 - psi) c else Int.tdiv (32767 * (255 - psi)) c

/-- Section 4.2, `max = min(max, candidate_max)` folded over the constraining
wheels, from the unconstrained 2147483647. -/
def specMax (psi : Int) (cs : List Int) : Int :=
  ((cs.filter (fun c => decide (constrains c))).map (candidateMax psi)).foldl Min.min 2147483647

/-- Section 4.2, `min = max(min, candidate_min)` folded over the constraining
wheels, from the unconstrained -2147483648. -/
def specMin (psi : Int) (cs : List Int) : Int :=
  ((cs.filter (fun c => decide (constrains c))).map (candidateMin psi)).foldl Max.max (-2147483648)

/-! ## A reference trig source -/

/-- Modelled from the spec: `fastTrig.h` is not among the sources.  Section 6
asks for the cosine of an integer degree angle scaled so that 1.0 is 32767;
this is the quarter wave `round(32767 * cos k°)` for `k = 0 .. 90`. -/
def cosQuarter : List Int :=
  [32767, 32762, 32747, 32722, 32687, 32642, 32587, 32523, 32448, 32364,
   32269, 32165, 32051, 31927, 31794, 31650, 31498, 31335, 31163, 30982,
   30791, 30591, 30381, 30162, 29934, 29697, 29451, 29196, 28932, 28659,
   28377, 28087, 27788, 27481, 27165, 26841, 26509, 26169, 25821, 25465,
   25101, 24730, 24351, 23964, 23571, 23170, 22762, 22347, 21925, 21497,
   21062, 20621, 20173, 19720, 19260, 18794, 18323, 17846, 17364, 16876,
   16384, 15886, 15383, 14876, 14364, 13848, 13328, 12803, 12275, 11743,
   11207, 10668, 10126, 9580, 9032, 8481, 7927, 7371, 6813, 6252,
   5690, 5126, 4560, 3993, 3425, 2856, 2286, 1715, 1144, 572, 0]

/-- Modelled from the spec: the cosine of section 6 for any integer degree
angle, by periodic wraparound and the symmetries of the quarter wave. -/
def cosdRef (a : Int) : Int :=
  let r := (a % 360).toNat
  if r ≤ 90 then cosQuarter.getD r 0
  else if r ≤ 180 then -(cosQuarter.getD (180 - r) 0)
  else if r ≤ 270 then -(cosQuarter.getD (r - 180) 0)
  else cosQuarter.getD (360 - r) 0

/-- Modelled from the spec: the sine of section 6, `sin a = cos (a - 90)`. -/
def sindRef (a : Int) : Int := cosdRef (a - 90)

/-- Modelled from the spec: the trig source of section 6. -/
def refTrig : TrigSource := { cosd := cosdRef, sind := sindRef }

/-- Every value of the trig source is on the 32767 scale. -/
def TrigInRange (t : TrigSource) : Prop :=
  ∀ a : Int, (-32767 ≤ t.cosd a ∧ t.cosd a ≤ 32767) ∧ (-32767 ≤ t.sind a ∧ t.sind a ≤ 32767)

/-! ## The operations with a division that can fail -/

/-- The C++ `a / b` on `int` with the zero divisor made explicit: `none` when
`b` is 0, the truncated quotient otherwise. -/
def idivChecked (a b : Int) : Option Int :=
  if b = 0 then none else some (idiv a b)

/-- The wheel A block (lines 244-256) over `idivChecked`. -/
def stepAChecked (psi cos_a : Int) (b : Bounds) : Option Bounds :=
  if cos_a < -FLOAT_ZERO_ERROR ∨ cos_a > FLOAT_ZERO_ERROR then
    if cos_a ≥ 0 then do
      let temp_max ← idivChecked (imul 32767 (isub MAX_RANGE psi)) cos_a
      let temp_min ← idivChecked (isub (-MAX_RANGE) psi) cos_a
      pure (tighten temp_max temp_min b)
    else do
      let temp_max ← idivChecked (imul 32767 (isub (-MAX_RANGE) psi)) cos_a
      let temp_min ← idivChecked (imul 32767 (isub MAX_RANGE psi)) cos_a
      pure (tighten temp_max temp_min b)
  else pure b

/-- The wheel B and wheel C blocks (lines 258-284) over `idivChecked`. -/
def stepBCChecked (psi cos_w : Int) (b : Bounds) : Option Bounds :=
  if cos_w < -FLOAT_ZERO_ERROR ∨ cos_w > FLOAT_ZERO_ERROR then
    if cos_w ≥ 0 then do
      let temp_max ← idivChecked (imul 32767 (isub MAX_RANGE psi)) cos_w
      let temp_min ← idivChecked (imul 32767 (isub (-MAX_RANGE) psi)) cos_w
      pure (tighten temp_max temp_min b)
    else do
      let temp_max ← idivChecked (imul 32767 (isub (-MAX_RANGE) psi)) cos_w
      let temp_min ← idivChecked (imul 32767 (isub MAX_RANGE psi)) cos_w
      pure (tighten temp_max temp_min b)
  else pure b

/-- The core `getBoundaries` (lines 236-300) over `idivChecked`. -/
def getBoundariesChecked (psi cos_a cos_b cos_c : Int) : Option Bounds := do
  let b1 ← stepAChecked psi cos_a { min := -2147483648, max := 2147483647 }
  let b2 ← stepBCChecked psi cos_b b1
  stepBCChecked psi cos_c b2

/-- The overload `getBoundaries(alpha, psi, min, max)` (lines 220-230) over
`idivChecked`. -/
def getBoundariesAlphaChecked (t : TrigSource) (alpha psi : Int) : Option Bounds := do
  let cos_a ← idivChecked (wheelCos t THETA_A alpha) 32767
  let cos_b ← idivChecked (wheelCos t THETA_B alpha) 32767
  let cos_c ← idivChecked (wheelCos t THETA_C alpha) 32767
  getBoundariesChecked psi cos_a cos_b cos_c

/-- The method `omnidrive::move` (lines 151-189) over `idivChecked`. -/
def moveChecked (t : TrigSource) (alpha v psi : Int) (w : Wheels) : Option (Int × Wheels) :=
  if psi > MAX_RANGE ∨ psi < -MAX_RANGE then pure (1, w)
  else do
    let cos_a := wheelCos t THETA_A alpha
    let cos_b := wheelCos t THETA_B alpha
    let cos_c := wheelCos t THETA_C alpha
    let b ← getBoundariesChecked psi cos_a cos_b cos_c
    let vo := clampSpeed v b
    let q_a ← idivChecked (imul vo.1 cos_a) 32767
    let q_b ← idivChecked (imul vo.1 cos_b) 32767
    let q_c ← idivChecked (imul vo.1 cos_c) 32767
    pure (vo.2, { v_a := iadd q_a psi, v_b := iadd q_b psi, v_c := iadd q_c psi })

/-- The method `omnidrive::moveCartesian` (lines 195-214) over
`idivChecked`. -/
def moveCartesianChecked (t : TrigSource) (v_x v_y psi : Int) (w : Wheels) :
    Option (Int × Wheels) :=
  if psi > MAX_RANGE ∨ psi < -MAX_RANGE then pure (1, w)
  else do
    let q_a ← idivChecked (isub (imul (t.cosd THETA_A) v_x) (imul (t.sind THETA_A) v_y)) 32767
    let q_b ← idivChecked (isub (imul (t.cosd THETA_B) v_x) (imul (t.sind THETA_B) v_y)) 32767
    let q_c ← idivChecked (isub (imul (t.cosd THETA_C) v_x) (imul (t.sind THETA_C) v_y)) 32767
    pure (0, { v_a := iadd q_a psi, v_b := iadd q_b psi, v_c := iadd q_c psi })

/-! ## The core getBoundaries in exact arithmetic, and with the wheel A factor -/

/-- The update of one wheel block of the core `getBoundaries` with every
`+`, `-`, `*`, `/` of the source taken on exact integers; `first` selects the
wheel A block, whose `cos_a >= 0` branch has no factor 32767 in `temp_min`. -/
def stepExact (first : Bool) (psi cos_w : Int) (b : Bounds) : Bounds :=
  if cos_w < -FLOAT_ZERO_ERROR ∨ cos_w > FLOAT_ZERO_ERROR then
    if cos_w ≥ 0 then
      tighten (Int.tdiv (32767 * (MAX_RANGE - psi)) cos_w)
        (if first then Int.tdiv (-MAX_RANGE - psi) cos_w
          else Int.tdiv (32767 * (-MAX_RANGE - psi)) cos_w) b
    else
      tighten (Int.tdiv (32767 * (-MAX_RANGE - psi)) cos_w)
        (Int.tdiv (32767 * (MAX_RANGE - psi)) cos_w) b
  else b

/-- The core `getBoundaries` (lines 236-300) on exact integers, without any
32-bit reduction. -/
def getBoundariesExact (psi cos_a cos_b cos_c : Int) : Bounds :=
  stepExact false psi cos_c (stepExact false psi cos_b (stepExact true psi cos_a
    { min := -2147483648, max := 2147483647 }))

/-- The variant of the core `getBoundaries` in which the wheel A block
computes `temp_min = 32767 * (-MAX_RANGE - psi) / cos_a` in its `cos_a >= 0`
branch, that is, the wheel A block reads like the wheel B and C blocks. -/
def getBoundariesFactorA (psi cos_a cos_b cos_c : Int) : Bounds :=
  stepBC psi cos_c (stepBC psi cos_b (stepBC psi cos_a
    { min := -2147483648, max := 2147483647 }))

/-- The signed 32-bit range. -/
def inInt32 (x : Int) : Prop := -2147483648 ≤ x ∧ x ≤ 2147483647

instance (x : Int) : Decidable (inInt32 x) := by
  unfold inInt32
  exact inferInstance

/-! ## 32-bit arithmetic within its range -/

theorem wrap32_of_range {x : Int} (h1 : -2147483648 ≤ x) (h2 : x ≤ 2147483647) :
    wrap32 x = x := by
  unfold wrap32; omega

theorem tdiv_abs_le (a c : Int) :
    -(a.natAbs : Int) ≤ a.tdiv c ∧ a.tdiv c ≤ (a.natAbs : Int) := by
  have h1 := Int.natAbs_tdiv a c
  have h2 : (a.natAbs).div c.natAbs ≤ a.natAbs := Nat.div_le_self _ _
  omega

theorem tdiv_32767_bounds {x : Int} (h1 : -2147483648 ≤ x) (h2 : x ≤ 2147483647) :
    -65538 ≤ x.tdiv 32767 ∧ x.tdiv 32767 ≤ 65538 := by
  rcases le_total 0 x with h | h
  · rw [Int.tdiv_eq_ediv h (by decide)]; omega
  · have : x.tdiv 32767 = -((-x) / 32767) := by
      rw [← Int.tdiv_eq_ediv (by omega) (by decide), Int.neg_tdiv, neg_neg]
    rw [this]; omega

/-- A quotient of a 32-bit numerator whose magnitude is not 2^31 is itself
in range: `idiv` is then the exact truncated quotient. -/
theorem idiv_exact {a : Int} (c : Int) (h1 : -2147483647 ≤ a) (h2 : a ≤ 2147483647) :
    idiv a c = a.tdiv c := by
  have h := tdiv_abs_le a c
  exact wrap32_of_range (by omega) (by omega)

theorem tdiv_nonneg_of_nonpos {a c : Int} (ha : a ≤ 0) (hc : c ≤ 0) : 0 ≤ a.tdiv c := by
  have h := Int.tdiv_nonneg (a := -a) (b := -c) (by omega) (by omega)
  rwa [Int.neg_tdiv_neg] at h

theorem tdiv_nonpos_of_nonpos_nonneg {a c : Int} (ha : a ≤ 0) (hc : 0 ≤ c) : a.tdiv c ≤ 0 := by
  have h := Int.tdiv_nonneg (a := -a) (b := c) (by omega) hc
  rw [Int.neg_tdiv] at h
  omega

/-! ## The numerators of getBoundaries for a rotation in range -/

theorem upper_numerator {psi : Int} (h1 : -255 ≤ psi) (h2 : psi ≤ 255) :
    imul 32767 (isub MAX_RANGE psi) = 32767 * (255 - psi) := by
  unfold imul isub MAX_RANGE
  rw [wrap32_of_range (x := 255 - psi) (by omega) (by omega)]
  exact wrap32_of_range (by omega) (by omega)

theorem lower_numerator {psi : Int} (h1 : -255 ≤ psi) (h2 : psi ≤ 255) :
    imul 32767 (isub (-MAX_RANGE) psi) = 32767 * (-255 - psi) := by
  unfold imul isub MAX_RANGE
  rw [wrap32_of_range (x := -255 - psi) (by omega) (by omega)]
  exact wrap32_of_range (by omega) (by omega)

theorem lower_numerator_A {psi : Int} (h1 : -255 ≤ psi) (h2 : psi ≤ 255) :
    isub (-MAX_RANGE) psi = -255 - psi := by
  unfold isub MAX_RANGE
  exact wrap32_of_range (by omega) (by omega)

/-- For a rotation in range the wheel B and C blocks tighten with the
candidates of section 4.2. -/
theorem stepBC_eq {psi : Int} (h1 : -255 ≤ psi) (h2 : psi ≤ 255) (c : Int) (b : Bounds) :
    stepBC psi c b =
      if constrains c then tighten (candidateMax psi c) (candidateMin psi c) b else b := by
  unfold stepBC constrains candidateMax candidateMin FLOAT_ZERO_ERROR
  rw [upper_numerator h1 h2, lower_numerator h1 h2,
    idiv_exact c (a := 32767 * (255 - psi)) (by omega) (by omega),
    idiv_exact c (a := 32767 * (-255 - psi)) (by omega) (by omega)]
  by_cases hc : c < -10 ∨ 10 < c
  · by_cases h0 : 0 ≤ c
    · have h0' : c ≥ 0 := h0
      have hc' : c < -10 ∨ c > 10 := hc
      simp only [if_pos hc, if_pos hc', if_pos h0, if_pos h0']
    · have h0' : ¬ c ≥ 0 := h0
      have hc' : c < -10 ∨ c > 10 := hc
      simp only [if_pos hc, if_pos hc', if_neg h0, if_neg h0']
  · have hc' : ¬ (c < -10 ∨ c > 10) := hc
    simp only [if_neg hc, if_neg hc']

/-- For a rotation in range the wheel A block tightens with the candidate
maximum of section 4.2 and its own `temp_min`. -/
theorem stepA_eq {psi : Int} (h1 : -255 ≤ psi) (h2 : psi ≤ 255) (c : Int) (b : Bounds) :
    stepA psi c b =
      if constrains c then tighten (candidateMax psi c) (tempMinA psi c) b else b := by
  unfold stepA constrains candidateMax tempMinA FLOAT_ZERO_ERROR
  rw [upper_numerator h1 h2, lower_numerator h1 h2, lower_numerator_A h1 h2,
    idiv_exact c (a := 32767 * (255 - psi)) (by omega) (by omega),
    idiv_exact c (a := 32767 * (-255 - psi)) (by omega) (by omega),
    idiv_exact c (a := -255 - psi) (by omega) (by omega)]
  by_cases hc : c < -10 ∨ 10 < c
  · by_cases h0 : 0 ≤ c
    · have h0' : c ≥ 0 := h0
      have hc' : c < -10 ∨ c > 10 := hc
      simp only [if_pos hc, if_pos hc', if_pos h0, if_pos h0']
    · have h0' : ¬ c ≥ 0 := h0
      have hc' : c < -10 ∨ c > 10 := hc
      simp only [if_pos hc, if_pos hc', if_neg h0, if_neg h0']
  · have hc' : ¬ (c < -10 ∨ c > 10) := hc
    simp only [if_neg hc, if_neg hc']

/-! ## Signs of the candidates -/

theorem candidateMax_nonneg {psi : Int} (h1 : -255 ≤ psi) (h2 : psi ≤ 255) (c : Int) :
    0 ≤ candidateMax psi c := by
  unfold candidateMax
  split
  · exact Int.tdiv_nonneg (by omega) (by assumption)
  · exact tdiv_nonneg_of_nonpos (by omega) (by omega)

theorem candidateMin_nonpos {psi : Int} (h1 : -255 ≤ psi) (h2 : psi ≤ 255) (c : Int) :
    candidateMin psi c ≤ 0 := by
  unfold candidateMin
  split
  · exact tdiv_nonpos_of_nonpos_nonneg (by omega) (by assumption)
  · exact Int.tdiv_nonpos (by omega) (by omega)

theorem tempMinA_nonpos {psi : Int} (h1 : -255 ≤ psi) (h2 : psi ≤ 255) (c : Int) :
    tempMinA psi c ≤ 0 := by
  unfold tempMinA
  split
  · exact tdiv_nonpos_of_nonpos_nonneg (by omega) (by assumption)
  · exact Int.tdiv_nonpos (by omega) (by omega)

/-! ## The update of one wheel block -/

theorem tighten_max (tmax tmin : Int) (b : Bounds) :
    (tighten tmax tmin b).max = Min.min b.max tmax := by
  unfold tighten
  by_cases h : tmax < b.max
  · simp only [if_pos h]; omega
  · rw [if_neg h]
    by_cases h' : tmin > b.min
    · simp only [if_pos h']; omega
    · simp only [if_neg h']; omega

theorem tighten_sign {tmax tmin : Int} {b : Bounds} (hmax : 0 ≤ tmax) (hmin : tmin ≤ 0)
    (hb : b.min ≤ 0 ∧ 0 ≤ b.max) :
    (tighten tmax tmin b).min ≤ 0 ∧ 0 ≤ (tighten tmax tmin b).max := by
  unfold tighten
  by_cases h : tmax < b.max
  · simp only [if_pos h]; exact ⟨hb.1, hmax⟩
  · rw [if_neg h]
    by_cases h' : tmin > b.min
    · simp only [if_pos h']; exact ⟨hmin, hb.2⟩
    · simp only [if_neg h']; exact hb

/-- For a rotation in range the boundary always contains speed 0. -/
theorem getBoundaries_sign {psi : Int} (h1 : -255 ≤ psi) (h2 : psi ≤ 255) (ca cb cc : Int) :
    (getBoundaries psi ca cb cc).min ≤ 0 ∧ 0 ≤ (getBoundaries psi ca cb cc).max := by
  unfold getBoundaries
  rw [stepBC_eq h1 h2, stepBC_eq h1 h2, stepA_eq h1 h2]
  have hA : ∀ b : Bounds, b.min ≤ 0 ∧ 0 ≤ b.max →
      (if constrains ca then tighten (candidateMax psi ca) (tempMinA psi ca) b else b).min ≤ 0 ∧
      0 ≤ (if constrains ca then tighten (candidateMax psi ca) (tempMinA psi ca) b else b).max := by
    intro b hb
    split
    · exact tighten_sign (candidateMax_nonneg h1 h2 ca) (tempMinA_nonpos h1 h2 ca) hb
    · exact hb
  have hW : ∀ (c : Int) (b : Bounds), b.min ≤ 0 ∧ 0 ≤ b.max →
      (if constrains c then tighten (candidateMax psi c) (candidateMin psi c) b else b).min ≤ 0 ∧
      0 ≤ (if constrains c then tighten (candidateMax psi c) (candidateMin psi c) b else b).max := by
    intro c b hb
    split
    · exact tighten_sign (candidateMax_nonneg h1 h2 c) (candidateMin_nonpos h1 h2 c) hb
    · exact hb
  exact hW cc _ (hW cb _ (hA _ ⟨by decide, by decide⟩))

theorem step_max_A {psi : Int} (h1 : -255 ≤ psi) (h2 : psi ≤ 255) (c : Int) (b : Bounds) :
    (stepA psi c b).max = if constrains c then Min.min b.max (candidateMax psi c) else b.max := by
  rw [stepA_eq h1 h2]
  split
  · exact tighten_max _ _ _
  · rfl

theorem step_max_BC {psi : Int} (h1 : -255 ≤ psi) (h2 : psi ≤ 255) (c : Int) (b : Bounds) :
    (stepBC psi c b).max = if constrains c then Min.min b.max (candidateMax psi c) else b.max := by
  rw [stepBC_eq h1 h2]
  split
  · exact tighten_max _ _ _
  · rfl

theorem getBoundaries_free (psi : Int) {ca cb cc : Int}
    (ha : -10 ≤ ca ∧ ca ≤ 10) (hb : -10 ≤ cb ∧ cb ≤ 10) (hc : -10 ≤ cc ∧ cc ≤ 10) :
    getBoundaries psi ca cb cc = { min := -2147483648, max := 2147483647 } := by
  have na : ¬ (ca < -FLOAT_ZERO_ERROR ∨ ca > FLOAT_ZERO_ERROR) := by
    unfold FLOAT_ZERO_ERROR; omega
  have nb : ¬ (cb < -FLOAT_ZERO_ERROR ∨ cb > FLOAT_ZERO_ERROR) := by
    unfold FLOAT_ZERO_ERROR; omega
  have nc : ¬ (cc < -FLOAT_ZERO_ERROR ∨ cc > FLOAT_ZERO_ERROR) := by
    unfold FLOAT_ZERO_ERROR; omega
  unfold getBoundaries stepBC stepA
  rw [if_neg na, if_neg nb, if_neg nc]

theorem cosQuarter_range (n : Nat) :
    0 ≤ cosQuarter.getD n 0 ∧ cosQuarter.getD n 0 ≤ 32767 := by
  have hall : ∀ x ∈ cosQuarter, 0 ≤ x ∧ x ≤ 32767 := by decide
  by_cases hn : n < cosQuarter.length
  · rw [List.getD_eq_getElem _ _ hn]
    exact hall _ (List.getElem_mem hn)
  · rw [List.getD_eq_default _ _ (by omega)]
    decide

theorem cosdRef_range (a : Int) : -32767 ≤ cosdRef a ∧ cosdRef a ≤ 32767 := by
  unfold cosdRef
  simp only []
  split
  · have := cosQuarter_range (a % 360).toNat; omega
  · split
    · have := cosQuarter_range (180 - (a % 360).toNat); omega
    · split
      · have := cosQuarter_range ((a % 360).toNat - 180); omega
      · have := cosQuarter_range (360 - (a % 360).toNat); omega

theorem refTrig_inRange : TrigInRange refTrig := by
  intro a
  exact ⟨cosdRef_range a, cosdRef_range (a - 90)⟩

theorem tdiv_32767_unit {c : Int} (h1 : -32767 ≤ c) (h2 : c ≤ 32767) :
    -1 ≤ c.tdiv 32767 ∧ c.tdiv 32767 ≤ 1 := by
  rcases le_total 0 c with h | h
  · rw [Int.tdiv_eq_ediv h (by decide)]; omega
  · have : c.tdiv 32767 = -((-c) / 32767) := by
      rw [← Int.tdiv_eq_ediv (by omega) (by decide), Int.neg_tdiv, neg_neg]
    rw [this]; omega

theorem idiv_32767_unit {c : Int} (h1 : -32767 ≤ c) (h2 : c ≤ 32767) :
    -10 ≤ idiv c 32767 ∧ idiv c 32767 ≤ 10 := by
  have h := tdiv_32767_unit h1 h2
  unfold idiv
  rw [wrap32_of_range (by omega) (by omega)]
  omega

/-- With a trig source on the 32767 scale the (alpha, psi) overload passes
cosines in [-1, 1] to the core, so no wheel constrains. -/
theorem getBoundariesAlpha_of_inRange {t : TrigSource} (ht : TrigInRange t) (alpha psi : Int) :
    getBoundariesAlpha t alpha psi = { min := -2147483648, max := 2147483647 } := by
  unfold getBoundariesAlpha wheelCos
  exact getBoundaries_free psi
    (idiv_32767_unit (ht _).1.1 (ht _).1.2)
    (idiv_32767_unit (ht _).1.1 (ht _).1.2)
    (idiv_32767_unit (ht _).1.1 (ht _).1.2)

/-- The angle of a projection cosine is exact whenever it fits in 32 bits, in
particular for every direction in [-180, 180]. -/
theorem wheelCos_exact (t : TrigSource) {theta alpha : Int}
    (h1 : 0 ≤ theta ∧ theta ≤ 360) (h2 : -2147483000 ≤ alpha ∧ alpha ≤ 2147483000) :
    wheelCos t theta alpha = t.cosd (theta + 90 - alpha) := by
  unfold wheelCos isub iadd
  rw [wrap32_of_range (x := theta + 90) (by omega) (by omega),
    wrap32_of_range (x := theta + 90 - alpha) (by omega) (by omega)]

theorem moveBounds_sign (t : TrigSource) (alpha : Int) {psi : Int}
    (h1 : -255 ≤ psi) (h2 : psi ≤ 255) :
    (moveBounds t alpha psi).min ≤ 0 ∧ 0 ≤ (moveBounds t alpha psi).max :=
  getBoundaries_sign h1 h2 _ _ _

theorem move_of_inRange (t : TrigSource) (alpha v : Int) {psi : Int} (w : Wheels)
    (h1 : -255 ≤ psi) (h2 : psi ≤ 255) :
    move t alpha v psi w =
      ((clampSpeed v (moveBounds t alpha psi)).2,
        { v_a := iadd (idiv (imul (clampSpeed v (moveBounds t alpha psi)).1
            (wheelCos t THETA_A alpha)) 32767) psi,
          v_b := iadd (idiv (imul (clampSpeed v (moveBounds t alpha psi)).1
            (wheelCos t THETA_B alpha)) 32767) psi,
          v_c := iadd (idiv (imul (clampSpeed v (moveBounds t alpha psi)).1
            (wheelCos t THETA_C alpha)) 32767) psi }) := by
  have hg : ¬ (psi > MAX_RANGE ∨ psi < -MAX_RANGE) := by unfold MAX_RANGE; omega
  unfold move
  rw [if_neg hg]

theorem move_of_outOfRange (t : TrigSource) (alpha v : Int) {psi : Int} (w : Wheels)
    (h : psi > 255 ∨ psi < -255) : move t alpha v psi w = (1, w) := by
  have hg : psi > MAX_RANGE ∨ psi < -MAX_RANGE := by unfold MAX_RANGE; omega
  unfold move
  rw [if_pos hg]

theorem clampSpeed_status (v : Int) (b : Bounds) :
    ((clampSpeed v b).2 = 2 ↔ v < b.min) ∧
    ((clampSpeed v b).2 = 3 ↔ ¬ v < b.min ∧ v > b.max) ∧
    ((clampSpeed v b).2 = 0 ↔ b.min ≤ v ∧ v ≤ b.max) ∧
    (clampSpeed v b).2 ≠ 1 := by
  unfold clampSpeed
  by_cases h : v < b.min <;> by_cases h' : v > b.max <;> (simp [h, h']; try omega)

theorem clampSpeed_speed (v : Int) (b : Bounds) :
    (clampSpeed v b).1 = if v < b.min then b.min else if v > b.max then b.max else v := by
  unfold clampSpeed
  split
  · rfl
  · split <;> rfl

theorem output_exact {x psi : Int} (h1 : -255 ≤ psi) (h2 : psi ≤ 255)
    (hx : -2147483648 ≤ x ∧ x ≤ 2147483647) :
    iadd (idiv (wrap32 x) 32767) psi = Int.tdiv x 32767 + psi := by
  have hb := tdiv_32767_bounds hx.1 hx.2
  unfold iadd idiv
  rw [wrap32_of_range hx.1 hx.2, wrap32_of_range (x := x.tdiv 32767) (by omega) (by omega)]
  exact wrap32_of_range (by omega) (by omega)

/-! ## The division never fails -/

theorem idivChecked_of_ne (a : Int) {b : Int} (h : b ≠ 0) :
    idivChecked a b = some (idiv a b) := by
  unfold idivChecked
  rw [if_neg h]

theorem stepAChecked_eq (psi c : Int) (b : Bounds) :
    stepAChecked psi c b = some (stepA psi c b) := by
  unfold stepAChecked stepA
  by_cases hg : c < -FLOAT_ZERO_ERROR ∨ c > FLOAT_ZERO_ERROR
  · have hne : c ≠ 0 := by unfold FLOAT_ZERO_ERROR at hg; omega
    rw [if_pos hg, if_pos hg]
    by_cases h0 : c ≥ 0
    · rw [if_pos h0, if_pos h0]
      simp only [idivChecked_of_ne _ hne, bind, Option.bind, pure]
    · rw [if_neg h0, if_neg h0]
      simp only [idivChecked_of_ne _ hne, bind, Option.bind, pure]
  · rw [if_neg hg, if_neg hg]
    rfl

theorem stepBCChecked_eq (psi c : Int) (b : Bounds) :
    stepBCChecked psi c b = some (stepBC psi c b) := by
  unfold stepBCChecked stepBC
  by_cases hg : c < -FLOAT_ZERO_ERROR ∨ c > FLOAT_ZERO_ERROR
  · have hne : c ≠ 0 := by unfold FLOAT_ZERO_ERROR at hg; omega
    rw [if_pos hg, if_pos hg]
    by_cases h0 : c ≥ 0
    · rw [if_pos h0, if_pos h0]
      simp only [idivChecked_of_ne _ hne, bind, Option.bind, pure]
    · rw [if_neg h0, if_neg h0]
      simp only [idivChecked_of_ne _ hne, bind, Option.bind, pure]
  · rw [if_neg hg, if_neg hg]
    rfl

theorem getBoundariesChecked_eq (psi ca cb cc : Int) :
    getBoundariesChecked psi ca cb cc = some (getBoundaries psi ca cb cc) := by
  unfold getBoundariesChecked getBoundaries
  simp only [stepAChecked_eq, stepBCChecked_eq, bind, Option.bind]

theorem divisor_32767_ne : (32767 : Int) ≠ 0 := by decide

/-! ## moveCartesian and zero inputs -/

theorem moveCartesian_of_inRange (t : TrigSource) (v_x v_y : Int) {psi : Int} (w : Wheels)
    (h1 : -255 ≤ psi) (h2 : psi ≤ 255) :
    moveCartesian t v_x v_y psi w =
      (0,
        { v_a := iadd (idiv (isub (imul (t.cosd THETA_A) v_x)
            (imul (t.sind THETA_A) v_y)) 32767) psi,
          v_b := iadd (idiv (isub (imul (t.cosd THETA_B) v_x)
            (imul (t.sind THETA_B) v_y)) 32767) psi,
          v_c := iadd (idiv (isub (imul (t.cosd THETA_C) v_x)
            (imul (t.sind THETA_C) v_y)) 32767) psi }) := by
  have hg : ¬ (psi > MAX_RANGE ∨ psi < -MAX_RANGE) := by unfold MAX_RANGE; omega
  unfold moveCartesian
  rw [if_neg hg]

theorem moveCartesian_of_outOfRange (t : TrigSource) (v_x v_y : Int) {psi : Int} (w : Wheels)
    (h : psi > 255 ∨ psi < -255) : moveCartesian t v_x v_y psi w = (1, w) := by
  have hg : psi > MAX_RANGE ∨ psi < -MAX_RANGE := by unfold MAX_RANGE; omega
  unfold moveCartesian
  rw [if_pos hg]

theorem cartesian_exact {a b psi : Int} (h1 : -255 ≤ psi) (h2 : psi ≤ 255)
    (ha : inInt32 a) (hb : inInt32 b) (hab : inInt32 (a - b)) :
    iadd (idiv (isub (wrap32 a) (wrap32 b)) 32767) psi = Int.tdiv (a - b) 32767 + psi := by
  unfold inInt32 at ha hb hab
  have hq := tdiv_32767_bounds hab.1 hab.2
  unfold iadd idiv isub
  rw [wrap32_of_range ha.1 ha.2, wrap32_of_range hb.1 hb.2, wrap32_of_range hab.1 hab.2,
    wrap32_of_range (x := (a - b).tdiv 32767) (by omega) (by omega)]
  exact wrap32_of_range (by omega) (by omega)

theorem zero_output {psi : Int} (h1 : -255 ≤ psi) (h2 : psi ≤ 255) :
    iadd (idiv 0 32767) psi = psi := by
  have h0 : idiv 0 32767 = 0 := by decide
  rw [h0]
  unfold iadd
  rw [Int.zero_add]
  exact wrap32_of_range (by omega) (by omega)

theorem imul_zero_left (c : Int) : imul 0 c = 0 := by
  unfold imul
  rw [Int.zero_mul]
  decide

theorem imul_zero_right (c : Int) : imul c 0 = 0 := by
  unfold imul
  rw [Int.mul_zero]
  decide

theorem clampSpeed_zero {b : Bounds} (h : b.min ≤ 0 ∧ 0 ≤ b.max) : clampSpeed 0 b = (0, 0) := by
  unfold clampSpeed
  rw [if_neg (by omega), if_neg (by omega)]

/-! ## The wheel A block never reads its temp_min -/

theorem candidateMax_le {psi : Int} (h1 : -255 ≤ psi) (h2 : psi ≤ 255) (c : Int) :
    candidateMax psi c ≤ 16711170 := by
  unfold candidateMax
  split
  · have h := tdiv_abs_le (32767 * (255 - psi)) c
    omega
  · have h := tdiv_abs_le (32767 * (-255 - psi)) c
    omega

theorem tighten_of_lt {tmax : Int} {b : Bounds} (h : tmax < b.max) (tmin : Int) :
    tighten tmax tmin b = { b with max := tmax } := by
  unfold tighten
  rw [if_pos h]

/-- On the initial bounds the wheel A block and the wheel B / C block agree:
`temp_max` is below 2147483647, so neither reads `temp_min`. -/
theorem stepA_initial {psi : Int} (h1 : -255 ≤ psi) (h2 : psi ≤ 255) (c : Int) :
    stepA psi c { min := -2147483648, max := 2147483647 } =
      stepBC psi c { min := -2147483648, max := 2147483647 } := by
  have hlt : candidateMax psi c < ({ min := -2147483648, max := 2147483647 } : Bounds).max := by
    have h := candidateMax_le h1 h2 c
    show candidateMax psi c < 2147483647
    omega
  rw [stepA_eq h1 h2, stepBC_eq h1 h2]
  split
  · rw [tighten_of_lt hlt, tighten_of_lt hlt]
  · rfl

theorem getBoundaries_eq_factorA {psi : Int} (h1 : -255 ≤ psi) (h2 : psi ≤ 255)
    (ca cb cc : Int) :
    getBoundaries psi ca cb cc = getBoundariesFactorA psi ca cb cc := by
  unfold getBoundaries getBoundariesFactorA
  rw [stepA_initial h1 h2]

theorem temp_max_upper {psi : Int} (h1 : -255 ≤ psi) (h2 : psi ≤ 255) (c : Int) :
    idiv (imul 32767 (isub MAX_RANGE psi)) c < 2147483647 := by
  rw [upper_numerator h1 h2, idiv_exact c (by omega) (by omega)]
  have h := tdiv_abs_le (32767 * (255 - psi)) c
  omega

theorem temp_max_lower {psi : Int} (h1 : -255 ≤ psi) (h2 : psi ≤ 255) (c : Int) :
    idiv (imul 32767 (isub (-MAX_RANGE) psi)) c < 2147483647 := by
  rw [lower_numerator h1 h2, idiv_exact c (by omega) (by omega)]
  have h := tdiv_abs_le (32767 * (-255 - psi)) c
  omega

/-! ## Exact arithmetic and the section 4.2 boundary -/

theorem stepExact_false_eq (psi c : Int) (b : Bounds) :
    stepExact false psi c b =
      if constrains c then tighten (candidateMax psi c) (candidateMin psi c) b else b := by
  unfold stepExact constrains candidateMax candidateMin FLOAT_ZERO_ERROR MAX_RANGE
  by_cases hc : c < -10 ∨ 10 < c
  · have hc' : c < -10 ∨ c > 10 := hc
    by_cases h0 : 0 ≤ c
    · have h0' : c ≥ 0 := h0
      simp only [if_pos hc, if_pos hc', if_pos h0, if_pos h0', Bool.false_eq_true, if_false]
    · have h0' : ¬ c ≥ 0 := h0
      simp only [if_pos hc, if_pos hc', if_neg h0, if_neg h0']
  · have hc' : ¬ (c < -10 ∨ c > 10) := hc
    simp only [if_neg hc, if_neg hc']

theorem stepExact_true_eq (psi c : Int) (b : Bounds) :
    stepExact true psi c b =
      if constrains c then tighten (candidateMax psi c) (tempMinA psi c) b else b := by
  unfold stepExact constrains candidateMax tempMinA FLOAT_ZERO_ERROR MAX_RANGE
  by_cases hc : c < -10 ∨ 10 < c
  · have hc' : c < -10 ∨ c > 10 := hc
    by_cases h0 : 0 ≤ c
    · have h0' : c ≥ 0 := h0
      simp only [if_pos hc, if_pos hc', if_pos h0, if_pos h0', if_true]
    · have h0' : ¬ c ≥ 0 := h0
      simp only [if_pos hc, if_pos hc', if_neg h0, if_neg h0']
  · have hc' : ¬ (c < -10 ∨ c > 10) := hc
    simp only [if_neg hc, if_neg hc']

theorem getBoundaries_eq_exact {psi : Int} (h1 : -255 ≤ psi) (h2 : psi ≤ 255)
    (ca cb cc : Int) :
    getBoundaries psi ca cb cc = getBoundariesExact psi ca cb cc := by
  unfold getBoundaries getBoundariesExact
  rw [stepBC_eq h1 h2, stepBC_eq h1 h2, stepA_eq h1 h2, stepExact_false_eq, stepExact_false_eq,
    stepExact_true_eq]

theorem quotient_inInt32 {a : Int} (h1 : -2147483647 ≤ a) (h2 : a ≤ 2147483647) (c : Int) :
    inInt32 (a.tdiv c) := by
  have h := tdiv_abs_le a c
  unfold inInt32
  omega

theorem wrap32_inInt32 (x : Int) : inInt32 (wrap32 x) := by
  unfold inInt32 wrap32
  omega

theorem tighten_inInt32 {tmax tmin : Int} {b : Bounds} (hmax : inInt32 tmax)
    (hmin : inInt32 tmin) (hb : inInt32 b.min ∧ inInt32 b.max) :
    inInt32 (tighten tmax tmin b).min ∧ inInt32 (tighten tmax tmin b).max := by
  unfold tighten
  split
  · exact ⟨hb.1, hmax⟩
  · split
    · exact ⟨hmin, hb.2⟩
    · exact hb

theorem stepA_inInt32 (psi c : Int) {b : Bounds} (hb : inInt32 b.min ∧ inInt32 b.max) :
    inInt32 (stepA psi c b).min ∧ inInt32 (stepA psi c b).max := by
  unfold stepA idiv
  split
  · split
    · exact tighten_inInt32 (wrap32_inInt32 _) (wrap32_inInt32 _) hb
    · exact tighten_inInt32 (wrap32_inInt32 _) (wrap32_inInt32 _) hb
  · exact hb

theorem stepBC_inInt32 (psi c : Int) {b : Bounds} (hb : inInt32 b.min ∧ inInt32 b.max) :
    inInt32 (stepBC psi c b).min ∧ inInt32 (stepBC psi c b).max := by
  unfold stepBC idiv
  split
  · split
    · exact tighten_inInt32 (wrap32_inInt32 _) (wrap32_inInt32 _) hb
    · exact tighten_inInt32 (wrap32_inInt32 _) (wrap32_inInt32 _) hb
  · exact hb

theorem getBoundaries_inInt32 (psi ca cb cc : Int) :
    inInt32 (getBoundaries psi ca cb cc).min ∧ inInt32 (getBoundaries psi ca cb cc).max := by
  unfold getBoundaries
  exact stepBC_inInt32 psi cc (stepBC_inInt32 psi cb (stepA_inInt32 psi ca
    ⟨by decide, by decide⟩))

theorem step_min_le {psi : Int} (h1 : -255 ≤ psi) (h2 : psi ≤ 255) (c : Int) (b : Bounds) :
    (stepBC psi c b).min ≤
      (if constrains c then Max.max b.min (candidateMin psi c) else b.min) ∧
    b.min ≤ (stepBC psi c b).min := by
  rw [stepBC_eq h1 h2]
  split
  · unfold tighten
    split
    · simp only; omega
    · split
      · simp only; omega
      · omega
  · omega

theorem getBoundaries_max_spec {psi : Int} (h1 : -255 ≤ psi) (h2 : psi ≤ 255)
    (ca cb cc : Int) :
    (getBoundaries psi ca cb cc).max = specMax psi [ca, cb, cc] := by
  unfold getBoundaries
  rw [step_max_BC h1 h2, step_max_BC h1 h2, step_max_A h1 h2]
  unfold specMax
  by_cases ha : constrains ca <;> by_cases hb : constrains cb <;> by_cases hc : constrains cc <;>
    simp [List.filter, ha, hb, hc]

theorem getBoundaries_min_le_spec {psi : Int} (h1 : -255 ≤ psi) (h2 : psi ≤ 255)
    (ca cb cc : Int) :
    (getBoundaries psi ca cb cc).min ≤ specMin psi [ca, cb, cc] := by
  rw [getBoundaries_eq_factorA h1 h2]
  unfold getBoundariesFactorA
  have hA := (step_min_le h1 h2 ca { min := -2147483648, max := 2147483647 }).1
  have hB := (step_min_le h1 h2 cb
    (stepBC psi ca { min := -2147483648, max := 2147483647 })).1
  have hC := (step_min_le h1 h2 cc
    (stepBC psi cb (stepBC psi ca { min := -2147483648, max := 2147483647 }))).1
  unfold specMin
  by_cases ha : constrains ca <;> by_cases hb : constrains cb <;> by_cases hc : constrains cc <;>
    simp only [List.filter, ha, hb, hc, decide_True, decide_False, List.map, List.foldl,
      if_true, if_false] at hA hB hC ⊢ <;> omega

/-! ## The high side of the clamp -/

theorem tdiv_32767_cases (x : Int) :
    x.tdiv 32767 = if 0 ≤ x then x / 32767 else -((-x) / 32767) := by
  split
  · exact Int.tdiv_eq_ediv (by assumption) (by decide)
  · rw [← Int.tdiv_eq_ediv (by omega) (by decide), Int.neg_tdiv, neg_neg]

theorem mul_le_of_le_tdiv {v c N : Int} (hc : 0 < c) (hN : 0 ≤ N) (hv : v ≤ N.tdiv c) :
    v * c ≤ N := by
  rw [Int.tdiv_eq_ediv hN (le_of_lt hc)] at hv
  have h1 : N / c * c ≤ N := Int.ediv_mul_le N (ne_of_gt hc)
  have h2 : v * c ≤ N / c * c := mul_le_mul_of_nonneg_right hv (le_of_lt hc)
  exact le_trans h2 h1

theorem le_mul_of_le_tdiv_neg {v c N : Int} (hc : c < 0) (hN : N ≤ 0) (hv : v ≤ N.tdiv c) :
    N ≤ v * c := by
  have hv' : v ≤ (-N).tdiv (-c) := by
    rw [Int.neg_tdiv_neg]
    exact hv
  have h : v * -c ≤ -N := mul_le_of_le_tdiv (by omega) (by omega) hv'
  rw [mul_neg] at h
  omega

/-- The clamped speed is at most `max` and lies between 0 and the requested
speed. -/
theorem clampSpeed_between (v : Int) {b : Bounds} (hb : b.min ≤ 0 ∧ 0 ≤ b.max) :
    (clampSpeed v b).1 ≤ b.max ∧
    ((0 ≤ (clampSpeed v b).1 ∧ (clampSpeed v b).1 ≤ v) ∨
      (v ≤ (clampSpeed v b).1 ∧ (clampSpeed v b).1 ≤ 0)) := by
  rw [clampSpeed_speed]
  split
  · omega
  · split <;> omega

theorem product_inInt32 {v v' c : Int} (hx : inInt32 (v * c))
    (hv : (0 ≤ v' ∧ v' ≤ v) ∨ (v ≤ v' ∧ v' ≤ 0)) : inInt32 (v' * c) := by
  unfold inInt32 at hx ⊢
  rcases le_total 0 c with hc | hc
  · rcases hv with ⟨h0, h1⟩ | ⟨h0, h1⟩
    · have ha : v' * c ≤ v * c := mul_le_mul_of_nonneg_right h1 hc
      have hb : 0 ≤ v' * c := mul_nonneg h0 hc
      constructor <;> linarith
    · have ha : v * c ≤ v' * c := mul_le_mul_of_nonneg_right h0 hc
      have hb : v' * c ≤ 0 := mul_nonpos_of_nonpos_of_nonneg h1 hc
      constructor <;> linarith
  · rcases hv with ⟨h0, h1⟩ | ⟨h0, h1⟩
    · have ha : v * c ≤ v' * c := mul_le_mul_of_nonpos_right h1 hc
      have hb : v' * c ≤ 0 := mul_nonpos_of_nonneg_of_nonpos h0 hc
      constructor <;> linarith
    · have ha : v' * c ≤ v * c := mul_le_mul_of_nonpos_right h0 hc
      have hb : 0 ≤ v' * c := mul_nonneg_of_nonpos_of_nonpos h1 hc
      constructor <;> linarith

theorem getBoundaries_max_le_candidate {psi : Int} (h1 : -255 ≤ psi) (h2 : psi ≤ 255)
    (ca cb cc : Int) :
    (constrains ca → (getBoundaries psi ca cb cc).max ≤ candidateMax psi ca) ∧
    (constrains cb → (getBoundaries psi ca cb cc).max ≤ candidateMax psi cb) ∧
    (constrains cc → (getBoundaries psi ca cb cc).max ≤ candidateMax psi cc) := by
  unfold getBoundaries
  rw [step_max_BC h1 h2, step_max_BC h1 h2, step_max_A h1 h2]
  by_cases ha : constrains ca <;> by_cases hb : constrains cb <;> by_cases hc : constrains cc <;>
    simp only [ha, hb, hc, if_true, if_false, false_implies, true_implies, and_self,
      true_and, and_true] <;> omega

/-- One wheel of `move`: with a clamped speed at most the wheel's candidate
maximum and a requested product in the 32-bit range, the output stays on the
side that increasing speed pushes it to. -/
theorem wheel_output_bound {psi v c : Int} {b : Bounds} (h1 : -255 ≤ psi) (h2 : psi ≤ 255)
    (hb : b.min ≤ 0 ∧ 0 ≤ b.max) (hx : inInt32 (v * c))
    (hmax : constrains c → b.max ≤ candidateMax psi c) :
    (10 < c → iadd (idiv (imul (clampSpeed v b).1 c) 32767) psi ≤ 255) ∧
    (c < -10 → -255 ≤ iadd (idiv (imul (clampSpeed v b).1 c) 32767) psi) := by
  have hcl := clampSpeed_between v hb
  have hp := product_inInt32 hx hcl.2
  have hout : iadd (idiv (imul (clampSpeed v b).1 c) 32767) psi =
      Int.tdiv ((clampSpeed v b).1 * c) 32767 + psi := output_exact h1 h2 hp
  rw [hout, tdiv_32767_cases]
  constructor
  · intro hc
    have hm := hmax (Or.inr hc)
    unfold candidateMax at hm
    rw [if_pos (by omega)] at hm
    have hle := mul_le_of_le_tdiv (by omega) (by omega) (le_trans hcl.1 hm)
    split <;> omega
  · intro hc
    have hm := hmax (Or.inl hc)
    unfold candidateMax at hm
    rw [if_neg (by omega)] at hm
    have hle := le_mul_of_le_tdiv_neg (by omega) (by omega) (le_trans hcl.1 hm)
    split <;> omega

/-! ## The claims -/

/-- C1, evaluated: with the reference trig source (values in
[-32767, 32767]), direction 90 and rotation 0, getMinV and getMaxV are
-2147483648 and 2147483647; speed 1000 lies between them and move returns 3,
speed -509 lies between them and move returns 0 with 509 in the wheel A
slot. -/
theorem move_within_getMinV_getMaxV_eval :
    TrigInRange refTrig ∧
    getMinV refTrig 90 0 = -2147483648 ∧ getMaxV refTrig 90 0 = 2147483647 ∧
    move refTrig 90 1000 0 ⟨0, 0, 0⟩ = (3, ⟨-255, 127, 127⟩) ∧
    move refTrig 90 (-509) 0 ⟨0, 0, 0⟩ = (0, ⟨509, -254, -254⟩) :=
  ⟨refTrig_inRange, by decide, by decide, by decide, by decide⟩

/-- C2: for a rotation psi in [-255, 255], with (v_min, v_max) the boundary
that the core getBoundaries computes from psi and the three projection cosines,
move returns 2 exactly when v < v_min, 3 exactly when v > v_max and 0 exactly
when v_min <= v <= v_max, and no two of the three conditions hold together. -/
theorem move_status_iff (t : TrigSource) (alpha v psi : Int) (w : Wheels)
    (h1 : -255 ≤ psi) (h2 : psi ≤ 255) :
    ((move t alpha v psi w).1 = 2 ↔
      v < (getBoundaries psi (wheelCos t THETA_A alpha) (wheelCos t THETA_B alpha)
        (wheelCos t THETA_C alpha)).min) ∧
    ((move t alpha v psi w).1 = 3 ↔
      v > (getBoundaries psi (wheelCos t THETA_A alpha) (wheelCos t THETA_B alpha)
        (wheelCos t THETA_C alpha)).max) ∧
    ((move t alpha v psi w).1 = 0 ↔
      (getBoundaries psi (wheelCos t THETA_A alpha) (wheelCos t THETA_B alpha)
        (wheelCos t THETA_C alpha)).min ≤ v ∧
      v ≤ (getBoundaries psi (wheelCos t THETA_A alpha) (wheelCos t THETA_B alpha)
        (wheelCos t THETA_C alpha)).max) ∧
    ¬ (v < (getBoundaries psi (wheelCos t THETA_A alpha) (wheelCos t THETA_B alpha)
        (wheelCos t THETA_C alpha)).min ∧
      v > (getBoundaries psi (wheelCos t THETA_A alpha) (wheelCos t THETA_B alpha)
        (wheelCos t THETA_C alpha)).max) := by
  have hs := moveBounds_sign t alpha h1 h2
  have hc := clampSpeed_status v (moveBounds t alpha psi)
  rw [move_of_inRange t alpha v w h1 h2]
  unfold moveBounds at hs hc
  refine ⟨hc.1, ?_, hc.2.2.1, by omega⟩
  constructor
  · intro h; exact (hc.2.1.mp h).2
  · intro h; exact hc.2.1.mpr ⟨by omega, h⟩

/-- C2, at direction 90 with rotation 0: speed 1000 is above the boundary
maximum and move returns 3. -/
theorem move_status_iff_witness :
    (move refTrig 90 1000 0 ⟨0, 0, 0⟩).1 = 3 :=
  (move_status_iff refTrig 90 1000 0 ⟨0, 0, 0⟩ (by decide) (by decide)).2.1.mpr (by decide)

/-- C4: move returns 1 if and only if the rotation is above 255 or below
-255, and then every wheel output slot keeps the value it had before the
call. -/
theorem move_rotation_error (t : TrigSource) (alpha v psi : Int) (w : Wheels) :
    ((move t alpha v psi w).1 = 1 ↔ (psi > 255 ∨ psi < -255)) ∧
    ((psi > 255 ∨ psi < -255) → (move t alpha v psi w).2 = w) := by
  by_cases h : psi > 255 ∨ psi < -255
  · rw [move_of_outOfRange t alpha v w h]
    exact ⟨⟨fun _ => h, fun _ => rfl⟩, fun _ => rfl⟩
  · rw [move_of_inRange t alpha v w (by omega) (by omega)]
    refine ⟨⟨fun h1 => ?_, fun h1 => absurd h1 h⟩, fun h1 => absurd h1 h⟩
    exact absurd h1 (clampSpeed_status v (moveBounds t alpha psi)).2.2.2

/-- C4, at rotation 256 and at rotation -256: status 1 and the slots
unchanged. -/
theorem move_rotation_error_witness :
    ((move refTrig 0 100 256 ⟨1, 2, 3⟩).1 = 1 ∧ (move refTrig 0 100 256 ⟨1, 2, 3⟩).2 = ⟨1, 2, 3⟩) ∧
    ((move refTrig 0 100 (-256) ⟨1, 2, 3⟩).1 = 1 ∧
      (move refTrig 0 100 (-256) ⟨1, 2, 3⟩).2 = ⟨1, 2, 3⟩) :=
  ⟨⟨(move_rotation_error refTrig 0 100 256 ⟨1, 2, 3⟩).1.mpr (by decide),
    (move_rotation_error refTrig 0 100 256 ⟨1, 2, 3⟩).2 (by decide)⟩,
   ⟨(move_rotation_error refTrig 0 100 (-256) ⟨1, 2, 3⟩).1.mpr (by decide),
    (move_rotation_error refTrig 0 100 (-256) ⟨1, 2, 3⟩).2 (by decide)⟩⟩

/-- C5: for a rotation psi in [-255, 255] and any three projection cosines,
the max returned by the core getBoundaries is the minimum of 2147483647 and the
section 4.2 candidate_max of every wheel with |c_w| > 10. -/
theorem getBoundaries_max_eq_specMax (psi ca cb cc : Int)
    (h1 : -255 ≤ psi) (h2 : psi ≤ 255) :
    (getBoundaries psi ca cb cc).max = specMax psi [ca, cb, cc] := by
  unfold getBoundaries
  rw [step_max_BC h1 h2, step_max_BC h1 h2, step_max_A h1 h2]
  unfold specMax
  by_cases ha : constrains ca <;> by_cases hb : constrains cb <;> by_cases hc : constrains cc <;>
    simp [List.filter, ha, hb, hc]

/-- C5, at a concrete input: rotation 0 and the cosines of direction 90. -/
theorem getBoundaries_max_eq_specMax_witness :
    (getBoundaries 0 (-32767) 16384 16384).max = specMax 0 [-32767, 16384, 16384] :=
  getBoundaries_max_eq_specMax 0 (-32767) 16384 16384 (by decide) (by decide)

/-- C6, evaluated: at rotation 0 with the cosines -32767, 16384, 16384 (the
projection cosines of direction 90) the core getBoundaries returns min -509,
while the maximum of -2147483648 and the three candidate_min values is
-255. -/
theorem getBoundaries_min_eval :
    (getBoundaries 0 (-32767) 16384 16384).min = -509 ∧
    specMin 0 [-32767, 16384, 16384] = -255 ∧
    candidateMin 0 (-32767) = -255 ∧ candidateMin 0 16384 = -509 ∧
    wheelCos refTrig THETA_A 90 = -32767 ∧ wheelCos refTrig THETA_B 90 = 16384 ∧
    wheelCos refTrig THETA_C 90 = 16384 := by
  decide

/-- C7, evaluated: at direction 90 and rotation 0 with the reference trig
source, getMinV and getMaxV are -2147483648 and 2147483647, the boundary that
move clamps against is (-509, 255), and the section 4.2 boundary of the
projection cosines is (-255, 255). -/
theorem getMaxV_getMinV_eval :
    getMinV refTrig 90 0 = -2147483648 ∧ getMaxV refTrig 90 0 = 2147483647 ∧
    moveBounds refTrig 90 0 = { min := -509, max := 255 } ∧
    specMin 0 [wheelCos refTrig THETA_A 90, wheelCos refTrig THETA_B 90,
      wheelCos refTrig THETA_C 90] = -255 ∧
    specMax 0 [wheelCos refTrig THETA_A 90, wheelCos refTrig THETA_B 90,
      wheelCos refTrig THETA_C 90] = 255 := by
  decide

/-- C8: for a rotation r in [-255, 255] the core getBoundaries returns
min <= max for all projection cosines, and so getMinV(d, r) <= getMaxV(d, r)
for every trig source and direction d. -/
theorem getBoundaries_min_le_max (r : Int) (h1 : -255 ≤ r) (h2 : r ≤ 255) :
    (∀ ca cb cc : Int, (getBoundaries r ca cb cc).min ≤ (getBoundaries r ca cb cc).max) ∧
    (∀ (t : TrigSource) (d : Int), getMinV t d r ≤ getMaxV t d r) := by
  constructor
  · intro ca cb cc
    have h := getBoundaries_sign h1 h2 ca cb cc
    omega
  · intro t d
    unfold getMinV getMaxV getBoundariesAlpha
    have h := getBoundaries_sign h1 h2 (idiv (wheelCos t THETA_A d) 32767)
      (idiv (wheelCos t THETA_B d) 32767) (idiv (wheelCos t THETA_C d) 32767)
    omega

/-- C8, at rotation 100: the cosines of direction 90, where all three wheels
constrain, and getMinV / getMaxV of the reference trig source. -/
theorem getBoundaries_min_le_max_witness :
    (getBoundaries 100 (-32767) 16384 16384).min ≤ (getBoundaries 100 (-32767) 16384 16384).max ∧
    getMinV refTrig 90 100 ≤ getMaxV refTrig 90 100 :=
  ⟨(getBoundaries_min_le_max 100 (by decide) (by decide)).1 (-32767) 16384 16384,
   (getBoundaries_min_le_max 100 (by decide) (by decide)).2 refTrig 90⟩

/-- C10: for every psi, when each of the three projection cosines lies in
[-10, 10] the core getBoundaries returns (min, max) =
(-2147483648, 2147483647). -/
theorem getBoundaries_no_constraint (psi ca cb cc : Int)
    (ha : -10 ≤ ca ∧ ca ≤ 10) (hb : -10 ≤ cb ∧ cb ≤ 10) (hc : -10 ≤ cc ∧ cc ≤ 10) :
    (getBoundaries psi ca cb cc).min = -2147483648 ∧
    (getBoundaries psi ca cb cc).max = 2147483647 := by
  rw [getBoundaries_free psi ha hb hc]
  exact ⟨rfl, rfl⟩

/-- C10, at rotation 300 (out of the actuator range) with cosines 10, -10
and 0. -/
theorem getBoundaries_no_constraint_witness :
    (getBoundaries 300 10 (-10) 0).min = -2147483648 ∧
    (getBoundaries 300 10 (-10) 0).max = 2147483647 :=
  getBoundaries_no_constraint 300 10 (-10) 0 (by decide) (by decide) (by decide)

/-- C11: no division by zero for any input.  With a division that fails on a
zero divisor, the core getBoundaries, the (alpha, psi) overload, move and
moveCartesian never fail: each returns the result of the total embedding.  The
divisions by a cosine sit under the guard c < -10 or c > 10 and every other
divisor is the constant 32767. -/
theorem division_never_fails (t : TrigSource) (alpha v v_x v_y psi ca cb cc : Int)
    (w : Wheels) :
    getBoundariesChecked psi ca cb cc = some (getBoundaries psi ca cb cc) ∧
    getBoundariesAlphaChecked t alpha psi = some (getBoundariesAlpha t alpha psi) ∧
    moveChecked t alpha v psi w = some (move t alpha v psi w) ∧
    moveCartesianChecked t v_x v_y psi w = some (moveCartesian t v_x v_y psi w) := by
  refine ⟨getBoundariesChecked_eq psi ca cb cc, ?_, ?_, ?_⟩
  · unfold getBoundariesAlphaChecked getBoundariesAlpha
    simp only [idivChecked_of_ne _ divisor_32767_ne, getBoundariesChecked_eq, bind, Option.bind]
  · unfold moveChecked move moveBounds
    by_cases hg : psi > MAX_RANGE ∨ psi < -MAX_RANGE
    · rw [if_pos hg, if_pos hg]; rfl
    · rw [if_neg hg, if_neg hg]
      simp only [idivChecked_of_ne _ divisor_32767_ne, getBoundariesChecked_eq, bind,
        Option.bind, pure]
  · unfold moveCartesianChecked moveCartesian
    by_cases hg : psi > MAX_RANGE ∨ psi < -MAX_RANGE
    · rw [if_pos hg, if_pos hg]; rfl
    · rw [if_neg hg, if_neg hg]
      simp only [idivChecked_of_ne _ divisor_32767_ne, bind, Option.bind, pure]

/-- C12, as amended: for a rotation psi in [-255, 255], moveCartesian writes
(cosd(theta_w) * x - sind(theta_w) * y) / 32767 + psi (truncating division)
to every wheel w of the tri configuration whose two products
cosd(theta_w) * x and sind(theta_w) * y and their difference lie in the signed
32-bit range; no clamping is applied. -/
theorem moveCartesian_outputs_of_in_range (t : TrigSource) (x y psi : Int) (w : Wheels)
    (h1 : -255 ≤ psi) (h2 : psi ≤ 255) :
    ((inInt32 (t.cosd THETA_A * x) ∧ inInt32 (t.sind THETA_A * y) ∧
        inInt32 (t.cosd THETA_A * x - t.sind THETA_A * y)) →
      (moveCartesian t x y psi w).2.v_a =
        Int.tdiv (t.cosd THETA_A * x - t.sind THETA_A * y) 32767 + psi) ∧
    ((inInt32 (t.cosd THETA_B * x) ∧ inInt32 (t.sind THETA_B * y) ∧
        inInt32 (t.cosd THETA_B * x - t.sind THETA_B * y)) →
      (moveCartesian t x y psi w).2.v_b =
        Int.tdiv (t.cosd THETA_B * x - t.sind THETA_B * y) 32767 + psi) ∧
    ((inInt32 (t.cosd THETA_C * x) ∧ inInt32 (t.sind THETA_C * y) ∧
        inInt32 (t.cosd THETA_C * x - t.sind THETA_C * y)) →
      (moveCartesian t x y psi w).2.v_c =
        Int.tdiv (t.cosd THETA_C * x - t.sind THETA_C * y) 32767 + psi) := by
  rw [moveCartesian_of_inRange t x y w h1 h2]
  unfold imul
  exact ⟨fun h => cartesian_exact h1 h2 h.1 h.2.1 h.2.2,
    fun h => cartesian_exact h1 h2 h.1 h.2.1 h.2.2,
    fun h => cartesian_exact h1 h2 h.1 h.2.1 h.2.2⟩

/-- C12 as amended, with the reference trig source at x = 100, y = 50 and
rotation 7: the slots receive -93, 13 and 100. -/
theorem moveCartesian_outputs_of_in_range_witness :
    (moveCartesian refTrig 100 50 7 ⟨0, 0, 0⟩).2.v_a =
      Int.tdiv (refTrig.cosd THETA_A * 100 - refTrig.sind THETA_A * 50) 32767 + 7 ∧
    (moveCartesian refTrig 100 50 7 ⟨0, 0, 0⟩).2.v_b =
      Int.tdiv (refTrig.cosd THETA_B * 100 - refTrig.sind THETA_B * 50) 32767 + 7 ∧
    (moveCartesian refTrig 100 50 7 ⟨0, 0, 0⟩).2.v_c =
      Int.tdiv (refTrig.cosd THETA_C * 100 - refTrig.sind THETA_C * 50) 32767 + 7 :=
  ⟨(moveCartesian_outputs_of_in_range refTrig 100 50 7 ⟨0, 0, 0⟩ (by decide) (by decide)).1
      (by decide),
   (moveCartesian_outputs_of_in_range refTrig 100 50 7 ⟨0, 0, 0⟩ (by decide) (by decide)).2.1
      (by decide),
   (moveCartesian_outputs_of_in_range refTrig 100 50 7 ⟨0, 0, 0⟩ (by decide) (by decide)).2.2
      (by decide)⟩

/-- C12 as stated fails at x = 100000, y = 0, rotation 0: the product
cosd(180) * x = -32767 * 100000 leaves the 32-bit range, and the wheel A slot
receives 31076 where (cosd(180) * x - sind(180) * y) / 32767 + psi is
-100000. -/
theorem moveCartesian_outputs_counterexample :
    refTrig.cosd THETA_A = -32767 ∧ refTrig.sind THETA_A = 0 ∧
    (moveCartesian refTrig 100000 0 0 ⟨0, 0, 0⟩).2.v_a = 31076 ∧
    Int.tdiv (refTrig.cosd THETA_A * 100000 - refTrig.sind THETA_A * 0) 32767 + 0 = -100000 ∧
    (moveCartesian refTrig 100000 0 0 ⟨0, 0, 0⟩).2.v_a ≠
      Int.tdiv (refTrig.cosd THETA_A * 100000 - refTrig.sind THETA_A * 0) 32767 + 0 := by
  decide

/-- C13: moveCartesian returns 1 and leaves every wheel output slot unchanged
when the rotation is above 255 or below -255, returns 0 for every rotation in
[-255, 255], and returns no status other than 0 and 1. -/
theorem moveCartesian_status (t : TrigSource) (v_x v_y psi : Int) (w : Wheels) :
    ((psi > 255 ∨ psi < -255) → moveCartesian t v_x v_y psi w = (1, w)) ∧
    ((-255 ≤ psi ∧ psi ≤ 255) → (moveCartesian t v_x v_y psi w).1 = 0) ∧
    ((moveCartesian t v_x v_y psi w).1 = 0 ∨ (moveCartesian t v_x v_y psi w).1 = 1) := by
  by_cases h : psi > 255 ∨ psi < -255
  · rw [moveCartesian_of_outOfRange t v_x v_y w h]
    exact ⟨fun _ => rfl, fun h' => absurd h (by omega), Or.inr rfl⟩
  · rw [moveCartesian_of_inRange t v_x v_y w (by omega) (by omega)]
    exact ⟨fun h' => absurd h' h, fun _ => rfl, Or.inl rfl⟩

/-- C13, at rotation 256 (status 1, slots unchanged) and at rotation 255
(status 0). -/
theorem moveCartesian_status_witness :
    moveCartesian refTrig 100 50 256 ⟨1, 2, 3⟩ = (1, ⟨1, 2, 3⟩) ∧
    (moveCartesian refTrig 100 50 255 ⟨1, 2, 3⟩).1 = 0 :=
  ⟨(moveCartesian_status refTrig 100 50 256 ⟨1, 2, 3⟩).1 (by decide),
   (moveCartesian_status refTrig 100 50 255 ⟨1, 2, 3⟩).2.1 (by decide)⟩

/-- C14: for any trig source moveCartesian(0, 0, 0) returns 0 and writes 0 to
every wheel output, and moveCartesian(0, 0, r) with r in [-255, 255] returns 0
and writes r to every wheel output. -/
theorem moveCartesian_zero (t : TrigSource) (w : Wheels) :
    moveCartesian t 0 0 0 w = (0, ⟨0, 0, 0⟩) ∧
    ∀ r : Int, -255 ≤ r → r ≤ 255 → moveCartesian t 0 0 r w = (0, ⟨r, r, r⟩) := by
  have hr : ∀ r : Int, -255 ≤ r → r ≤ 255 → moveCartesian t 0 0 r w = (0, ⟨r, r, r⟩) := by
    intro r h1 h2
    have hs : isub 0 0 = 0 := by decide
    rw [moveCartesian_of_inRange t 0 0 w h1 h2]
    simp only [imul_zero_right, hs, zero_output h1 h2]
  exact ⟨hr 0 (by decide) (by decide), hr⟩

/-- C14, with the reference trig source at rotation 100. -/
theorem moveCartesian_zero_witness :
    moveCartesian refTrig 0 0 100 ⟨1, 2, 3⟩ = (0, ⟨100, 100, 100⟩) :=
  (moveCartesian_zero refTrig ⟨1, 2, 3⟩).2 100 (by decide) (by decide)

/-- C15: for a rotation psi in [-255, 255] and all projection cosines, the min
returned by the core getBoundaries is at most the maximum of -2147483648 and
the section 4.2 candidate_min of the wheels with |c_w| > 10, the returned max
is the minimum of 2147483647 and their candidate_max, and so every speed of
the section 4.2 interval lies in the returned interval. -/
theorem getBoundaries_contains_spec (psi ca cb cc : Int)
    (h1 : -255 ≤ psi) (h2 : psi ≤ 255) :
    (getBoundaries psi ca cb cc).min ≤ specMin psi [ca, cb, cc] ∧
    (getBoundaries psi ca cb cc).max = specMax psi [ca, cb, cc] ∧
    ∀ v : Int, specMin psi [ca, cb, cc] ≤ v → v ≤ specMax psi [ca, cb, cc] →
      (getBoundaries psi ca cb cc).min ≤ v ∧ v ≤ (getBoundaries psi ca cb cc).max := by
  have hmin := getBoundaries_min_le_spec h1 h2 ca cb cc
  have hmax := getBoundaries_max_spec h1 h2 ca cb cc
  refine ⟨hmin, hmax, ?_⟩
  intro v hv1 hv2
  omega

/-- C15, at rotation 0 with the cosines of direction 90: the returned
interval is (-509, 255), the section 4.2 interval is (-255, 255), and speed
-255 lies in both. -/
theorem getBoundaries_contains_spec_witness :
    (getBoundaries 0 (-32767) 16384 16384).min ≤ specMin 0 [-32767, 16384, 16384] ∧
    (getBoundaries 0 (-32767) 16384 16384).max = specMax 0 [-32767, 16384, 16384] ∧
    ((getBoundaries 0 (-32767) 16384 16384).min ≤ -255 ∧
      -255 ≤ (getBoundaries 0 (-32767) 16384 16384).max) :=
  ⟨(getBoundaries_contains_spec 0 (-32767) 16384 16384 (by decide) (by decide)).1,
   (getBoundaries_contains_spec 0 (-32767) 16384 16384 (by decide) (by decide)).2.1,
   (getBoundaries_contains_spec 0 (-32767) 16384 16384 (by decide) (by decide)).2.2 (-255)
     (by decide) (by decide)⟩

/-- C16: for a trig source with values in [-32767, 32767], every direction
alpha and every rotation psi, in or out of range, getMaxV(alpha, psi) is
2147483647 and getMinV(alpha, psi) is -2147483648. -/
theorem getMaxV_getMinV_unconstrained (t : TrigSource) (ht : TrigInRange t)
    (alpha psi : Int) :
    getMaxV t alpha psi = 2147483647 ∧ getMinV t alpha psi = -2147483648 := by
  unfold getMaxV getMinV
  rw [getBoundariesAlpha_of_inRange ht alpha psi]
  exact ⟨rfl, rfl⟩

/-- C16, with the reference trig source at direction 90 and the out-of-range
rotation 1000. -/
theorem getMaxV_getMinV_unconstrained_witness :
    TrigInRange refTrig ∧
    getMaxV refTrig 90 1000 = 2147483647 ∧ getMinV refTrig 90 1000 = -2147483648 :=
  ⟨refTrig_inRange, getMaxV_getMinV_unconstrained refTrig refTrig_inRange 90 1000⟩

/-- C17: for a rotation psi in [-255, 255], every direction and every speed
v, after move each wheel whose projection cosine c_w is above 10 and whose
product v * c_w is in the signed 32-bit range has output <= 255, and each
wheel with c_w below -10 and v * c_w in the 32-bit range has output >= -255.
The products are in range in particular when |v| <= 65535 and
|c_w| <= 32767. -/
theorem move_high_side_sound (t : TrigSource) (alpha v psi : Int) (w : Wheels)
    (h1 : -255 ≤ psi) (h2 : psi ≤ 255) :
    (inInt32 (v * wheelCos t THETA_A alpha) →
      (10 < wheelCos t THETA_A alpha → (move t alpha v psi w).2.v_a ≤ 255) ∧
      (wheelCos t THETA_A alpha < -10 → -255 ≤ (move t alpha v psi w).2.v_a)) ∧
    (inInt32 (v * wheelCos t THETA_B alpha) →
      (10 < wheelCos t THETA_B alpha → (move t alpha v psi w).2.v_b ≤ 255) ∧
      (wheelCos t THETA_B alpha < -10 → -255 ≤ (move t alpha v psi w).2.v_b)) ∧
    (inInt32 (v * wheelCos t THETA_C alpha) →
      (10 < wheelCos t THETA_C alpha → (move t alpha v psi w).2.v_c ≤ 255) ∧
      (wheelCos t THETA_C alpha < -10 → -255 ≤ (move t alpha v psi w).2.v_c)) ∧
    ((-65535 ≤ v ∧ v ≤ 65535) →
      ∀ c : Int, -32767 ≤ c → c ≤ 32767 → inInt32 (v * c)) := by
  have hs := moveBounds_sign t alpha h1 h2
  have hm := getBoundaries_max_le_candidate h1 h2 (wheelCos t THETA_A alpha)
    (wheelCos t THETA_B alpha) (wheelCos t THETA_C alpha)
  rw [move_of_inRange t alpha v w h1 h2]
  refine ⟨fun hx => wheel_output_bound h1 h2 hs hx hm.1,
    fun hx => wheel_output_bound h1 h2 hs hx hm.2.1,
    fun hx => wheel_output_bound h1 h2 hs hx hm.2.2, ?_⟩
  intro hv c hc1 hc2
  unfold inInt32
  have hsq : (v * c) ^ 2 ≤ (65535 * 32767) ^ 2 := by
    have hv2 : v ^ 2 ≤ 65535 ^ 2 := by nlinarith
    have hc2 : c ^ 2 ≤ 32767 ^ 2 := by nlinarith
    have : (v * c) ^ 2 = v ^ 2 * c ^ 2 := by ring
    rw [this]
    have : (65535 * 32767 : Int) ^ 2 = 65535 ^ 2 * 32767 ^ 2 := by ring
    rw [this]
    exact mul_le_mul hv2 hc2 (sq_nonneg c) (by norm_num)
  have habs := abs_le_of_sq_le_sq' hsq (by norm_num)
  constructor <;> linarith [habs.1, habs.2]

/-- C17, with the reference trig source at direction 90, rotation 100 and
speed 2000: the boundary is (-709, 309), move returns 3 and uses speed 309.
Wheel A has cosine -32767 and output -209 >= -255, wheel B has cosine 16384
and output 254 <= 255; the unclamped speed would give -1900 and 1100. -/
theorem move_high_side_sound_witness :
    (move refTrig 90 2000 100 ⟨0, 0, 0⟩).1 = 3 ∧
    -255 ≤ (move refTrig 90 2000 100 ⟨0, 0, 0⟩).2.v_a ∧
    (move refTrig 90 2000 100 ⟨0, 0, 0⟩).2.v_b ≤ 255 ∧
    (move refTrig 90 2000 100 ⟨0, 0, 0⟩).2 = ⟨-209, 254, 254⟩ ∧
    Int.tdiv (2000 * wheelCos refTrig THETA_A 90) 32767 + 100 = -1900 ∧
    Int.tdiv (2000 * wheelCos refTrig THETA_B 90) 32767 + 100 = 1100 :=
  ⟨by decide,
   ((move_high_side_sound refTrig 90 2000 100 ⟨0, 0, 0⟩ (by decide) (by decide)).1
      (by decide)).2 (by decide),
   ((move_high_side_sound refTrig 90 2000 100 ⟨0, 0, 0⟩ (by decide) (by decide)).2.1
      (by decide)).1 (by decide),
   by decide, by decide, by decide⟩

/-- C18: for a rotation psi in [-255, 255] the core getBoundaries returns
min <= 0 <= max for all projection cosines, and move(d, 0, psi) returns 0 and
writes psi to every wheel output, for every trig source and direction d. -/
theorem move_zero_speed (psi : Int) (h1 : -255 ≤ psi) (h2 : psi ≤ 255) :
    (∀ ca cb cc : Int,
      (getBoundaries psi ca cb cc).min ≤ 0 ∧ 0 ≤ (getBoundaries psi ca cb cc).max) ∧
    (∀ (t : TrigSource) (d : Int) (w : Wheels), move t d 0 psi w = (0, ⟨psi, psi, psi⟩)) := by
  refine ⟨fun ca cb cc => getBoundaries_sign h1 h2 ca cb cc, ?_⟩
  intro t d w
  rw [move_of_inRange t d 0 w h1 h2, clampSpeed_zero (moveBounds_sign t d h1 h2)]
  simp only [imul_zero_left, zero_output h1 h2]

/-- C18, at rotation 77: the cosines of direction 90, and move with the
reference trig source at direction 90. -/
theorem move_zero_speed_witness :
    ((getBoundaries 77 (-32767) 16384 16384).min ≤ 0 ∧
      0 ≤ (getBoundaries 77 (-32767) 16384 16384).max) ∧
    move refTrig 90 0 77 ⟨1, 2, 3⟩ = (0, ⟨77, 77, 77⟩) :=
  ⟨(move_zero_speed 77 (by decide) (by decide)).1 (-32767) 16384 16384,
   (move_zero_speed 77 (by decide) (by decide)).2 refTrig 90 ⟨1, 2, 3⟩⟩

/-- C19: for a rotation psi in [-255, 255] and all projection cosines, those
in [-32767, 32767] among them, the core getBoundaries on 32-bit wraparound
arithmetic
returns what it returns on exact integers, and every value it computes is in
the signed 32-bit range: the differences 255 - psi and -255 - psi, the
products 32767 * (255 - psi) and 32767 * (-255 - psi), the quotients by each
cosine, and the returned min and max. -/
theorem getBoundaries_wrap_eq_exact (psi ca cb cc : Int)
    (h1 : -255 ≤ psi) (h2 : psi ≤ 255) :
    getBoundaries psi ca cb cc = getBoundariesExact psi ca cb cc ∧
    inInt32 (MAX_RANGE - psi) ∧ inInt32 (-MAX_RANGE - psi) ∧
    inInt32 (32767 * (MAX_RANGE - psi)) ∧ inInt32 (32767 * (-MAX_RANGE - psi)) ∧
    (∀ c ∈ [ca, cb, cc],
      inInt32 (Int.tdiv (32767 * (MAX_RANGE - psi)) c) ∧
      inInt32 (Int.tdiv (32767 * (-MAX_RANGE - psi)) c) ∧
      inInt32 (Int.tdiv (-MAX_RANGE - psi) c)) ∧
    inInt32 (getBoundariesExact psi ca cb cc).min ∧
    inInt32 (getBoundariesExact psi ca cb cc).max := by
  have he := getBoundaries_eq_exact h1 h2 ca cb cc
  have hr := getBoundaries_inInt32 psi ca cb cc
  rw [he] at hr
  refine ⟨he, ?_, ?_, ?_, ?_, ?_, hr.1, hr.2⟩
  · unfold inInt32 MAX_RANGE; omega
  · unfold inInt32 MAX_RANGE; omega
  · unfold inInt32 MAX_RANGE; omega
  · unfold inInt32 MAX_RANGE; omega
  · intro c _
    unfold MAX_RANGE
    exact ⟨quotient_inInt32 (by omega) (by omega) c, quotient_inInt32 (by omega) (by omega) c,
      quotient_inInt32 (by omega) (by omega) c⟩

/-- C19, at rotation -255 with the cosines 11, -32767 and 16384. -/
theorem getBoundaries_wrap_eq_exact_witness :
    getBoundaries (-255) 11 (-32767) 16384 = getBoundariesExact (-255) 11 (-32767) 16384 ∧
    inInt32 (32767 * (MAX_RANGE - (-255))) ∧
    inInt32 (getBoundariesExact (-255) 11 (-32767) 16384).max :=
  ⟨(getBoundaries_wrap_eq_exact (-255) 11 (-32767) 16384 (by decide) (by decide)).1,
   (getBoundaries_wrap_eq_exact (-255) 11 (-32767) 16384 (by decide) (by decide)).2.2.2.1,
   (getBoundaries_wrap_eq_exact (-255) 11 (-32767) 16384 (by decide) (by decide)).2.2.2.2.2.2.2⟩

/-- C20: for a rotation psi in [-255, 255] and all projection cosines, the
core getBoundaries returns the same (min, max) as the variant whose wheel A
block computes temp_min = 32767 * (-255 - psi) / cos_a in the non-negative
branch; both temp_max values of the wheel A block are below 2147483647, the
max it compares with, so its else-if branch is never reached. -/
theorem getBoundaries_eq_factorA_variant (psi ca cb cc : Int)
    (h1 : -255 ≤ psi) (h2 : psi ≤ 255) :
    getBoundaries psi ca cb cc = getBoundariesFactorA psi ca cb cc ∧
    idiv (imul 32767 (isub MAX_RANGE psi)) ca < 2147483647 ∧
    idiv (imul 32767 (isub (-MAX_RANGE) psi)) ca < 2147483647 :=
  ⟨getBoundaries_eq_factorA h1 h2 ca cb cc, temp_max_upper h1 h2 ca, temp_max_lower h1 h2 ca⟩

/-- C20, at rotation 0 with cosines 11, 16384, 16384: wheel A is in its
non-negative branch, where the source computes temp_min = -255 / 11 = -23 and
the variant 32767 * -255 / 11 = -759598; both return (-509, 509). -/
theorem getBoundaries_eq_factorA_variant_witness :
    (getBoundaries 0 11 16384 16384 = getBoundariesFactorA 0 11 16384 16384 ∧
      idiv (imul 32767 (isub MAX_RANGE 0)) 11 < 2147483647 ∧
      idiv (imul 32767 (isub (-MAX_RANGE) 0)) 11 < 2147483647) ∧
    idiv (isub (-MAX_RANGE) 0) 11 = -23 ∧
    idiv (imul 32767 (isub (-MAX_RANGE) 0)) 11 = -759598 ∧
    getBoundaries 0 11 16384 16384 = { min := -509, max := 509 } :=
  ⟨getBoundaries_eq_factorA_variant 0 11 16384 16384 (by decide) (by decide),
   by decide, by decide, by decide⟩

end Omnidrive
